import Mathlib

/-!
Verification of the solana-dex-amm operator client (src/client/src/main.rs)
against its natural-language specification.

The embedding models public keys as natural numbers, byte strings as lists
of naturals, and the network as an explicit event log.  Functions whose
source lives in this repository but outside src/ (the makidex_amm
instruction builders, the seed constants, and the rpc send_txn helper) are
modelled from the specification and marked as such in their doc comments.
-/

namespace AmmClient

/-- A ledger address (32-byte public key), modelled as a natural number. -/
abbrev Pubkey := Nat

/-- A signing keypair, modelled by the public key it controls. -/
abbrev Keypair := Pubkey

/-- The role of one account inside an instruction: address plus signer/writable
flags (anchor_lang::prelude::AccountMeta). -/
structure AccountMeta where
  pubkey : Pubkey
  is_signer : Bool
  is_writable : Bool
deriving Repr, DecidableEq

/-- A protocol instruction: owning program, ordered account references and
the serialized payload bytes. -/
structure Instruction where
  program_id : Pubkey
  accounts : List AccountMeta
  data : List Nat
deriving Repr, DecidableEq

/-- A transaction as assembled by solana_sdk: fee payer, instruction list,
recent blockhash, and the set of public keys a signature was produced for. -/
structure Transaction where
  fee_payer : Option Pubkey
  instructions : List Instruction
  recent_blockhash : Nat
  signatures : List Pubkey
deriving Repr, DecidableEq

/-- The environment supplying the one-way hash and the on-curve test that
Pubkey.find_program_address consults (sha256 and curve membership are
external to the repository; the claims depend only on their determinism). -/
structure DeriveOracle where
  hash : List Nat → Pubkey
  onCurve : Pubkey → Bool

/-- The fixed marker bytes appended by program-derived-address hashing. -/
def pdaMarker : List Nat := (String.toList "ProgramDerivedAddress").map Char.toNat

/-- Candidate address for one bump value: hash of seeds, bump byte, owning
program identifier and the fixed marker. -/
def pdaCandidate (o : DeriveOracle) (seeds : List (List Nat)) (prog : Pubkey)
    (bump : Nat) : Pubkey :=
  o.hash (seeds.flatten ++ [bump] ++ [prog] ++ pdaMarker)

/-- Try bump values b-1, b-2, ..., 0 in order, returning the first candidate
that is not on the curve together with its bump. -/
def tryBump (o : DeriveOracle) (seeds : List (List Nat)) (prog : Pubkey) :
    Nat → Option (Pubkey × Nat)
  | 0 => none
  | b + 1 =>
    let c := pdaCandidate o seeds prog b
    if o.onCurve c then tryBump o seeds prog b else some (c, b)

/-- Pubkey.find_program_address: scan bumps from 255 downward and return the
first off-curve candidate with its bump (none if none exists). -/
def find_program_address (o : DeriveOracle) (seeds : List (List Nat))
    (prog : Pubkey) : Option (Pubkey × Nat) :=
  tryBump o seeds prog 256

/-- Identifier of the SPL token program (external well-known constant). -/
def TOKEN_PROGRAM_ID : Pubkey := 9001

/-- Identifier of the associated-token-account program (external constant). -/
def ATA_PROGRAM_ID : Pubkey := 9002

/-- Identifier of the system program (external well-known constant). -/
def SYSTEM_PROGRAM_ID : Pubkey := 9003

/-- Identifier of the rent sysvar (external well-known constant). -/
def RENT_SYSVAR_ID : Pubkey := 9004

/-- spl_associated_token_account::get_associated_token_address: the
deterministic token-account address for an (owner, mint) pair, derived as a
program address of the associated-token program over the seeds
[owner, token program, mint]. -/
def get_associated_token_address (o : DeriveOracle) (owner mint : Pubkey) :
    Option Pubkey :=
  (find_program_address o [[owner], [TOKEN_PROGRAM_ID], [mint]] ATA_PROGRAM_ID).map
    Prod.fst

/-- Runtime failure of one invocation: an eager panic (with its message) or
a propagated error result. -/
inductive RunErr where
  | panic (msg : String)
  | err (msg : String)
deriving Repr, DecidableEq

/-- The settings file: a lookup from (section, key) to the raw string value
when the key is present. -/
def IniFile := String → String → Option String

/-- config.get(section, key).unwrap(): panics when the key is missing. -/
def getStr (ini : IniFile) (sec key : String) : Except RunErr String :=
  match ini sec key with
  | none => .error (.panic "called unwrap on a None value")
  | some s => .ok s

/-- The read-then-check-empty pattern of the source: unwrap the raw value, then
panic with "<key> must not be empty" when it is empty. -/
def getNonEmpty (ini : IniFile) (sec key : String) : Except RunErr String := do
  let s ← getStr ini sec key
  if s.isEmpty then .error (.panic (key ++ " must not be empty")) else .ok s

/-- The pattern the source uses for address fields: unwrap, check non-empty, then
Pubkey::from_str(...).unwrap() which panics when parsing fails. -/
def getPk (fromStr : String → Option Pubkey) (ini : IniFile) (sec key : String) :
    Except RunErr Pubkey := do
  let s ← getNonEmpty ini sec key
  match fromStr s with
  | none => .error (.panic "Pubkey from_str failed")
  | some pk => .ok pk

/-- The validated client configuration (struct ClientConfig). -/
structure ClientConfig where
  http_url : String
  ws_url : String
  payer_path : String
  admin_path : String
  withdrawer_path : String
  admin_key : Pubkey
  raydium_program : Pubkey
  pnl_owner : Pubkey
  withdrawer : Pubkey
  amm_pool : Pubkey
  amm_open_orders : Pubkey
  amm_coin_vault : Pubkey
  amm_pc_vault : Pubkey
  amm_target_orders : Pubkey
  coin_mint : Pubkey
  pc_mint : Pubkey
deriving Repr, DecidableEq

/-- load_cfg: read and validate every field in the order the source uses — Global
section first (http_url, ws_url, payer_path, admin_path, withdrawer_path,
raydium_program, pnl_owner, withdrawer, admin_key), then the Withdraw
section (amm_pool, amm_open_orders, amm_coin_vault, amm_pc_vault,
amm_target_orders, coin_mint, pc_mint); every check panics eagerly. -/
def load_cfg (fromStr : String → Option Pubkey) (ini : IniFile) :
    Except RunErr ClientConfig := do
  let http_url ← getNonEmpty ini "Global" "http_url"
  let ws_url ← getNonEmpty ini "Global" "ws_url"
  let payer_path ← getNonEmpty ini "Global" "payer_path"
  let admin_path ← getNonEmpty ini "Global" "admin_path"
  let withdrawer_path ← getNonEmpty ini "Global" "withdrawer_path"
  let raydium_program ← getPk fromStr ini "Global" "raydium_program"
  let pnl_owner ← getPk fromStr ini "Global" "pnl_owner"
  let withdrawer ← getPk fromStr ini "Global" "withdrawer"
  let admin_key ← getPk fromStr ini "Global" "admin_key"
  let amm_pool ← getPk fromStr ini "Withdraw" "amm_pool"
  let amm_open_orders ← getPk fromStr ini "Withdraw" "amm_open_orders"
  let amm_coin_vault ← getPk fromStr ini "Withdraw" "amm_coin_vault"
  let amm_pc_vault ← getPk fromStr ini "Withdraw" "amm_pc_vault"
  let amm_target_orders ← getPk fromStr ini "Withdraw" "amm_target_orders"
  let coin_mint ← getPk fromStr ini "Withdraw" "coin_mint"
  let pc_mint ← getPk fromStr ini "Withdraw" "pc_mint"
  pure { http_url, ws_url, payer_path, admin_path, withdrawer_path, admin_key,
         raydium_program, pnl_owner, withdrawer, amm_pool, amm_open_orders,
         amm_coin_vault, amm_pc_vault, amm_target_orders, coin_mint, pc_mint }

/-- Modelled from the spec: the seed byte constant
makidex_amm::processor::AMM_CONFIG_SEED, whose defining module is not part
of the provided sources; the spec treats it as a fixed seed byte constant
embedded in the on-chain program. -/
def AMM_CONFIG_SEED : List Nat := (String.toList "amm_config_account_seed").map Char.toNat

/-- Modelled from the spec: the seed byte constant
makidex_amm::processor::AUTHORITY_AMM, whose defining module is not part of
the provided sources; the spec treats it as a fixed seed byte constant
embedded in the on-chain program. -/
def AUTHORITY_AMM : List Nat := (String.toList "amm authority").map Char.toNat

/-- Modelled from the spec: the opcode discriminator identifying the
create-config-account operation (makidex_amm::instruction is not part of
the provided sources). -/
def CREATE_CONFIG_TAG : Nat := 14

/-- Modelled from the spec: the opcode discriminator identifying the
owner-withdraw operation (makidex_amm::instruction is not part of the
provided sources). -/
def OWNER_WITHDRAW_TAG : Nat := 15

/-- Modelled from the spec: makidex_amm::instruction::create_config_account
(the instruction module is not part of the provided sources).  Per the
spec, the account list is, in order: the program-owned config address
(writable, not signer), the admin key (not signer, not writable), the payer
(signer, writable), the pnl-owner reference (not signer, not writable),
then the system program and the rent sysvar; the payload is the opcode
discriminator with no further arguments. -/
def create_config_account (program admin_key payer amm_config pnl_owner : Pubkey) :
    Instruction :=
  { program_id := program
    accounts :=
      [ { pubkey := amm_config, is_signer := false, is_writable := true }
      , { pubkey := admin_key, is_signer := false, is_writable := false }
      , { pubkey := payer, is_signer := true, is_writable := true }
      , { pubkey := pnl_owner, is_signer := false, is_writable := false }
      , { pubkey := SYSTEM_PROGRAM_ID, is_signer := false, is_writable := false }
      , { pubkey := RENT_SYSVAR_ID, is_signer := false, is_writable := false } ]
    data := [CREATE_CONFIG_TAG] }

/-- Modelled from the spec: makidex_amm::instruction::ownerwithdraw (the
instruction module is not part of the provided sources).  Per the spec, the
account list is, in order: pool state (writable), authority PDA (not
signer), open-orders state (writable), both vault accounts (writable), both
mint accounts (read-only), both destination token accounts (writable), the
withdrawer identity (read-only), target-orders state (writable), and the
fee payer (signer); the payload is the opcode discriminator with no further
arguments. -/
def ownerwithdraw (program amm_pool amm_authority amm_open_orders coin_mint
    pc_mint amm_coin_vault amm_pc_vault user_token_coin user_token_pc
    withdrawer amm_target_orders payer : Pubkey) : Instruction :=
  { program_id := program
    accounts :=
      [ { pubkey := amm_pool, is_signer := false, is_writable := true }
      , { pubkey := amm_authority, is_signer := false, is_writable := false }
      , { pubkey := amm_open_orders, is_signer := false, is_writable := true }
      , { pubkey := amm_coin_vault, is_signer := false, is_writable := true }
      , { pubkey := amm_pc_vault, is_signer := false, is_writable := true }
      , { pubkey := coin_mint, is_signer := false, is_writable := false }
      , { pubkey := pc_mint, is_signer := false, is_writable := false }
      , { pubkey := user_token_coin, is_signer := false, is_writable := true }
      , { pubkey := user_token_pc, is_signer := false, is_writable := true }
      , { pubkey := withdrawer, is_signer := false, is_writable := false }
      , { pubkey := amm_target_orders, is_signer := false, is_writable := true }
      , { pubkey := payer, is_signer := true, is_writable := false } ]
    data := [OWNER_WITHDRAW_TAG] }

/-- The distinct public keys required to sign a transaction: the fee payer
together with every account flagged as signer in some instruction. -/
def requiredSigners (feePayer : Pubkey) (instrs : List Instruction) : List Pubkey :=
  (feePayer :: instrs.flatMap fun i =>
    (i.accounts.filter (fun m => m.is_signer)).map (fun m => m.pubkey)).dedup

/-- Transaction::new_signed_with_payer: build a message with the given fee
payer and sign it.  Succeeds only when the provided signers are exactly the
required signer set (a provided keypair outside the required set raises
KeypairPubkeyMismatch, a required signer with no keypair raises
NotEnoughSigners); on success the transaction carries one signature per
required signer. -/
def new_signed_with_payer (instrs : List Instruction) (payer : Pubkey)
    (signers : List Keypair) (recent_blockhash : Nat) : Option Transaction :=
  let req := requiredSigners payer instrs
  if signers.all (fun k => req.contains k) && req.all (fun k => signers.contains k)
  then some { fee_payer := some payer, instructions := instrs,
              recent_blockhash, signatures := req }
  else none

/-- The two CLI subcommands (enum CommandsName). -/
inductive CommandsName where
  | CreateConfigAccount
  | OwnerWithdrawPool
deriving Repr, DecidableEq

/-- An observable interaction with the network RPC endpoint. -/
inductive NetEvent where
  | getLatestBlockhash
  | sendTransaction (t : Transaction)
deriving Repr, DecidableEq

/-- Whether an event is a transaction broadcast. -/
def NetEvent.isSend : NetEvent → Bool
  | .sendTransaction _ => true
  | _ => false

/-- The state of the network as the invocation sees it: the latest blockhash the
RPC endpoint returns. -/
structure RpcState where
  latest : Nat
deriving Repr, DecidableEq

/-- The external world of one invocation: the settings file, the keypair files
on disk (by path), the hashing oracle, the RPC endpoint state, and the
selected subcommand. -/
structure Env where
  ini : IniFile
  keyfiles : String → Option Keypair
  oracle : DeriveOracle
  rpc : RpcState
  cmd : CommandsName

/-- read_keypair_file: load a keypair from a file path, mapping any failure
to a descriptive error result (never a panic). -/
def read_keypair_file (kf : String → Option Keypair) (path : String) :
    Except RunErr Keypair :=
  match kf path with
  | none => .error (.err ("failed to read keypair from " ++ path))
  | some k => .ok k

/-- main: load and validate the configuration, read the payer, admin and
withdrawer keypairs, create the RPC client (no network traffic), read the
anchor wallet (payer path again), then dispatch on the subcommand: derive
the needed program address(es), build the one instruction, fetch the latest
blockhash, sign with the payer alone, and broadcast the transaction once.
Returns the network events in order together with the result. -/
def runMain (fromStr : String → Option Pubkey) (env : Env) :
    List NetEvent × Except RunErr Transaction :=
  match load_cfg fromStr env.ini with
  | .error e => ([], .error e)
  | .ok pool_config =>
  match read_keypair_file env.keyfiles pool_config.payer_path with
  | .error e => ([], .error e)
  | .ok payer =>
  match read_keypair_file env.keyfiles pool_config.admin_path with
  | .error e => ([], .error e)
  | .ok _admin =>
  match read_keypair_file env.keyfiles pool_config.withdrawer_path with
  | .error e => ([], .error e)
  | .ok _withdrawer =>
  match read_keypair_file env.keyfiles pool_config.payer_path with
  | .error e => ([], .error e)
  | .ok _wallet =>
  match env.cmd with
  | .CreateConfigAccount =>
    match find_program_address env.oracle [AMM_CONFIG_SEED]
        pool_config.raydium_program with
    | none => ([], .error (.panic "Unable to find a viable program address nonce"))
    | some (amm_config_key, _bump) =>
      let create_instr := create_config_account pool_config.raydium_program
        pool_config.admin_key payer amm_config_key pool_config.pnl_owner
      let signers := [payer]
      let recent_hash := env.rpc.latest
      match new_signed_with_payer [create_instr] payer signers recent_hash with
      | none => ([.getLatestBlockhash], .error (.panic "transaction signing failed"))
      | some txn => ([.getLatestBlockhash, .sendTransaction txn], .ok txn)
  | .OwnerWithdrawPool =>
    match find_program_address env.oracle [AUTHORITY_AMM]
        pool_config.raydium_program with
    | none => ([], .error (.panic "Unable to find a viable program address nonce"))
    | some (amm_authority_key, _bump) =>
    match get_associated_token_address env.oracle pool_config.withdrawer
        pool_config.coin_mint with
    | none => ([], .error (.panic "Unable to find a viable program address nonce"))
    | some user_token_coin_key =>
    match get_associated_token_address env.oracle pool_config.withdrawer
        pool_config.pc_mint with
    | none => ([], .error (.panic "Unable to find a viable program address nonce"))
    | some user_token_pc_key =>
      let withdraw_instr := ownerwithdraw pool_config.raydium_program
        pool_config.amm_pool amm_authority_key pool_config.amm_open_orders
        pool_config.coin_mint pool_config.pc_mint pool_config.amm_coin_vault
        pool_config.amm_pc_vault user_token_coin_key user_token_pc_key
        pool_config.withdrawer pool_config.amm_target_orders payer
      let signers := [payer]
      let recent_hash := env.rpc.latest
      match new_signed_with_payer [withdraw_instr] payer signers recent_hash with
      | none => ([.getLatestBlockhash], .error (.panic "transaction signing failed"))
      | some txn => ([.getLatestBlockhash, .sendTransaction txn], .ok txn)

/-- One call to the address deriver inside an effectful world: the world
state advances (other operations may consume entropy or perform I/O), while
the derivation result is computed from the seeds and program alone. -/
def find_program_address_call (o : DeriveOracle) (seeds : List (List Nat))
    (prog : Pubkey) (world : Nat) : Nat × Option (Pubkey × Nat) :=
  (world + 1, find_program_address o seeds prog)

/-- Two sequenced calls to the address deriver, threading the world state
from the first call into the second; returns both results. -/
def deriveTwice (o : DeriveOracle) (seeds : List (List Nat)) (prog : Pubkey)
    (w : Nat) : Option (Pubkey × Nat) × Option (Pubkey × Nat) :=
  let r1 := find_program_address_call o seeds prog w
  let r2 := find_program_address_call o seeds prog r1.1
  (r1.2, r2.2)

/-- The five non-address Global fields, read via getNonEmpty. -/
def globalStrKeys : List String :=
  ["http_url", "ws_url", "payer_path", "admin_path", "withdrawer_path"]

/-- The four address-valued Global fields, read via getPk. -/
def globalPkKeys : List String :=
  ["raydium_program", "pnl_owner", "withdrawer", "admin_key"]

/-- The seven address-valued Withdraw fields, read via getPk. -/
def withdrawPkKeys : List String :=
  ["amm_pool", "amm_open_orders", "amm_coin_vault", "amm_pc_vault",
   "amm_target_orders", "coin_mint", "pc_mint"]

/-- Some configuration field consumed by the tool is missing, empty, or
(for address fields) structurally invalid, i.e. fails to parse. -/
def fieldBad (fromStr : String → Option Pubkey) (ini : IniFile) : Prop :=
  (∃ k ∈ globalStrKeys, ini "Global" k = none ∨ ini "Global" k = some "") ∨
  (∃ k ∈ globalPkKeys, ini "Global" k = none ∨ ini "Global" k = some "" ∨
    ∃ s, ini "Global" k = some s ∧ fromStr s = none) ∨
  (∃ k ∈ withdrawPkKeys, ini "Withdraw" k = none ∨ ini "Withdraw" k = some "" ∨
    ∃ s, ini "Withdraw" k = some s ∧ fromStr s = none)

/-- Some withdraw-only configuration field is missing or empty. -/
def withdrawFieldMissing (ini : IniFile) : Prop :=
  ∃ k ∈ withdrawPkKeys, ini "Withdraw" k = none ∨ ini "Withdraw" k = some ""

/-- The network as the TransactionSubmitter of the spec sees it: the blockhash
each successive fetch returns, and whether the blockhash obtained by a
given fetch has expired by the time the submitter reaches the broadcast
step. -/
structure NetworkEnv where
  fetchSeq : Nat → Nat
  staleAt : Nat → Bool

/-- Modelled from the spec: the TransactionSubmitter staleness handling of
section 4.3 (the send/confirm helper send_txn lives in the client module
instructions::rpc, which is not among the provided sources).  Each
attempt fetches the current checkpoint and signs the transaction over it;
if the checkpoint has gone stale before the broadcast step, the submitter
re-fetches a new checkpoint and re-signs instead of sending the stale
payload; attempts are bounded by a retry budget.  Returns the event log
and, on success, the broadcast transaction with its fetch index. -/
def submitLoop (net : NetworkEnv) (instr : Instruction) (payer : Pubkey)
    (signers : List Keypair) :
    Nat → Nat → List NetEvent × Option (Transaction × Nat)
  | _, 0 => ([], none)
  | i, fuel + 1 =>
    match new_signed_with_payer [instr] payer signers (net.fetchSeq i) with
    | none => ([.getLatestBlockhash], none)
    | some txn =>
      if net.staleAt i then
        let r := submitLoop net instr payer signers (i + 1) fuel
        (.getLatestBlockhash :: r.1, r.2)
      else ([.getLatestBlockhash, .sendTransaction txn], some (txn, i))

/-- Concrete address parser for test fixtures: the length of the string. -/
def fromStr0 : String → Option Pubkey := fun s => some s.length

/-- Concrete settings file for test fixtures: every key present, with the
name of the key as its value. -/
def ini0 : IniFile := fun _ key => some key

/-- Concrete settings file whose values are all empty. -/
def iniEmpty : IniFile := fun _ _ => some ""

/-- Concrete settings file with a good Global section but an empty
amm_pool value in the Withdraw section. -/
def iniBadW : IniFile := fun sec key =>
  if sec = "Withdraw" && key = "amm_pool" then some "" else some key

/-- Concrete keypair files for test fixtures: every path loads key 77. -/
def keyfiles0 : String → Option Keypair := fun _ => some 77

/-- Concrete keypair files that all fail to load. -/
def keyfilesNone : String → Option Keypair := fun _ => none

/-- Concrete derivation oracle for test fixtures. -/
def oracle0 : DeriveOracle := { hash := fun l => l.sum, onCurve := fun _ => false }

/-- Concrete RPC state for test fixtures. -/
def rpc0 : RpcState := { latest := 5 }

/-- Concrete environment running the create-config subcommand. -/
def env0c : Env :=
  { ini := ini0, keyfiles := keyfiles0, oracle := oracle0, rpc := rpc0,
    cmd := .CreateConfigAccount }

/-- Concrete environment running the owner-withdraw subcommand. -/
def env0w : Env :=
  { ini := ini0, keyfiles := keyfiles0, oracle := oracle0, rpc := rpc0,
    cmd := .OwnerWithdrawPool }

/-- Concrete environment whose settings values are all empty. -/
def envEmpty : Env :=
  { ini := iniEmpty, keyfiles := keyfiles0, oracle := oracle0, rpc := rpc0,
    cmd := .CreateConfigAccount }

/-- Concrete create-config environment with an empty Withdraw field. -/
def envBadW : Env :=
  { ini := iniBadW, keyfiles := keyfiles0, oracle := oracle0, rpc := rpc0,
    cmd := .CreateConfigAccount }

/-- Concrete environment whose keypair files all fail to load. -/
def envNoKeys : Env :=
  { ini := ini0, keyfiles := keyfilesNone, oracle := oracle0, rpc := rpc0,
    cmd := .OwnerWithdrawPool }

/-- Concrete network for the submitter fixtures: the first fetched
checkpoint expires before the broadcast step, the second does not. -/
def net0 : NetworkEnv :=
  { fetchSeq := fun n => 100 + n, staleAt := fun n => n == 0 }

/-- Every account flagged as signer in any instruction of the transaction
has a matching entry in the signature set of the transaction. -/
def coverageOk (t : Transaction) : Bool :=
  t.instructions.all fun i =>
    i.accounts.all fun m =>
      !m.is_signer || decide (m.pubkey ∈ t.signatures)

/-- The configuration that loading the ini0 fixture produces. -/
def cfg0 : ClientConfig :=
  { http_url := "http_url", ws_url := "ws_url", payer_path := "payer_path",
    admin_path := "admin_path", withdrawer_path := "withdrawer_path",
    admin_key := 9, raydium_program := 15, pnl_owner := 9, withdrawer := 10,
    amm_pool := 8, amm_open_orders := 15, amm_coin_vault := 14,
    amm_pc_vault := 12, amm_target_orders := 17, coin_mint := 9, pc_mint := 7 }

/-- The create-config instruction the env0c fixture produces. -/
def instr0c : Instruction := create_config_account 15 9 77 4811 9

/-- The transaction the env0c fixture broadcasts. -/
def txn0c : Transaction :=
  { fee_payer := some 77, instructions := [instr0c], recent_blockhash := 5,
    signatures := [77] }

/-- The event log of the env0c fixture run. -/
def evs0c : List NetEvent := [.getLatestBlockhash, .sendTransaction txn0c]

/-- The owner-withdraw instruction the env0w fixture produces. -/
def instr0w : Instruction := ownerwithdraw 15 8 3763 15 9 7 14 12 20422 20420 10 17 77

/-- The transaction the env0w fixture broadcasts. -/
def txn0w : Transaction :=
  { fee_payer := some 77, instructions := [instr0w], recent_blockhash := 5,
    signatures := [77] }

/-- The event log of the env0w fixture run. -/
def evs0w : List NetEvent := [.getLatestBlockhash, .sendTransaction txn0w]

/-- An instruction for the submitter fixture. -/
def instrS : Instruction := create_config_account 1 2 3 4 5

/-- The transaction the submitter fixture broadcasts: signed over the
second fetched checkpoint after the first went stale. -/
def txnS : Transaction :=
  { fee_payer := some 3, instructions := [instrS], recent_blockhash := 101,
    signatures := [3] }

theorem except_bind_ok {α β : Type} {a : Except RunErr α}
    {f : α → Except RunErr β} {v : β} (h : (a >>= f) = .ok v) :
    ∃ x, a = .ok x ∧ f x = .ok v := by
  cases a with
  | error e => exact Except.noConfusion h
  | ok x => exact ⟨x, rfl, h⟩

theorem new_signed_with_payer_ok {instrs : List Instruction} {payer : Pubkey}
    {signers : List Keypair} {bh : Nat} {txn : Transaction}
    (h : new_signed_with_payer instrs payer signers bh = some txn) :
    txn = { fee_payer := some payer, instructions := instrs,
            recent_blockhash := bh,
            signatures := requiredSigners payer instrs } := by
  simp only [new_signed_with_payer] at h
  split at h
  · exact (Option.some.injEq _ _ ▸ h).symm
  · exact Option.noConfusion h

theorem mem_requiredSigners {payer : Pubkey} {instrs : List Instruction}
    {i : Instruction} {m : AccountMeta} (hi : i ∈ instrs) (hm : m ∈ i.accounts)
    (hs : m.is_signer = true) : m.pubkey ∈ requiredSigners payer instrs := by
  unfold requiredSigners
  rw [List.mem_dedup]
  refine List.mem_cons_of_mem _ ?_
  rw [List.mem_flatMap]
  exact ⟨i, hi, List.mem_map_of_mem _ (List.mem_filter.mpr ⟨hm, hs⟩)⟩

theorem load_cfg_ok_fields {fromStr : String → Option Pubkey} {ini : IniFile}
    {cfg : ClientConfig} (h : load_cfg fromStr ini = .ok cfg) :
    (∀ k ∈ globalStrKeys, ∃ v, getNonEmpty ini "Global" k = .ok v) ∧
    (∀ k ∈ globalPkKeys, ∃ v, getPk fromStr ini "Global" k = .ok v) ∧
    (∀ k ∈ withdrawPkKeys, ∃ v, getPk fromStr ini "Withdraw" k = .ok v) := by
  unfold load_cfg at h
  obtain ⟨v1, h1, h⟩ := except_bind_ok h
  obtain ⟨v2, h2, h⟩ := except_bind_ok h
  obtain ⟨v3, h3, h⟩ := except_bind_ok h
  obtain ⟨v4, h4, h⟩ := except_bind_ok h
  obtain ⟨v5, h5, h⟩ := except_bind_ok h
  obtain ⟨v6, h6, h⟩ := except_bind_ok h
  obtain ⟨v7, h7, h⟩ := except_bind_ok h
  obtain ⟨v8, h8, h⟩ := except_bind_ok h
  obtain ⟨v9, h9, h⟩ := except_bind_ok h
  obtain ⟨v10, h10, h⟩ := except_bind_ok h
  obtain ⟨v11, h11, h⟩ := except_bind_ok h
  obtain ⟨v12, h12, h⟩ := except_bind_ok h
  obtain ⟨v13, h13, h⟩ := except_bind_ok h
  obtain ⟨v14, h14, h⟩ := except_bind_ok h
  obtain ⟨v15, h15, h⟩ := except_bind_ok h
  obtain ⟨v16, h16, _⟩ := except_bind_ok h
  refine ⟨?_, ?_, ?_⟩
  · intro k hk
    simp only [globalStrKeys, List.mem_cons, List.not_mem_nil, or_false] at hk
    rcases hk with rfl | rfl | rfl | rfl | rfl
    exacts [⟨v1, h1⟩, ⟨v2, h2⟩, ⟨v3, h3⟩, ⟨v4, h4⟩, ⟨v5, h5⟩]
  · intro k hk
    simp only [globalPkKeys, List.mem_cons, List.not_mem_nil, or_false] at hk
    rcases hk with rfl | rfl | rfl | rfl
    exacts [⟨v6, h6⟩, ⟨v7, h7⟩, ⟨v8, h8⟩, ⟨v9, h9⟩]
  · intro k hk
    simp only [withdrawPkKeys, List.mem_cons, List.not_mem_nil, or_false] at hk
    rcases hk with rfl | rfl | rfl | rfl | rfl | rfl | rfl
    exacts [⟨v10, h10⟩, ⟨v11, h11⟩, ⟨v12, h12⟩, ⟨v13, h13⟩, ⟨v14, h14⟩,
            ⟨v15, h15⟩, ⟨v16, h16⟩]

theorem empty_string_isEmpty : "".isEmpty = true := rfl

theorem getNonEmpty_bad {ini : IniFile} {sec key : String}
    (h : ini sec key = none ∨ ini sec key = some "") :
    ∀ v, getNonEmpty ini sec key ≠ .ok v := by
  intro v hv
  rcases h with h | h <;>
    simp [getNonEmpty, getStr, h, Bind.bind, Except.bind,
      empty_string_isEmpty] at hv

theorem getPk_bad {fromStr : String → Option Pubkey} {ini : IniFile}
    {sec key : String}
    (h : ini sec key = none ∨ ini sec key = some "" ∨
      ∃ s, ini sec key = some s ∧ fromStr s = none) :
    ∀ v, getPk fromStr ini sec key ≠ .ok v := by
  intro v hv
  rcases h with h | h | ⟨s, hs, hf⟩
  · simp [getPk, getNonEmpty, getStr, h, Bind.bind, Except.bind] at hv
  · simp [getPk, getNonEmpty, getStr, h, Bind.bind, Except.bind,
      empty_string_isEmpty] at hv
  · by_cases he : s.isEmpty <;>
      simp [getPk, getNonEmpty, getStr, hs, hf, he, Bind.bind, Except.bind] at hv

theorem read_keypair_file_ok {kf : String → Option Keypair} {path : String}
    {k : Keypair} (h : read_keypair_file kf path = .ok k) : kf path = some k := by
  unfold read_keypair_file at h
  cases hk : kf path with
  | none => rw [hk] at h; exact Except.noConfusion h
  | some x => rw [hk] at h; injection h with hx; rw [hx]

theorem runMain_ok {fromStr : String → Option Pubkey} {env : Env}
    {evs : List NetEvent} {txn : Transaction}
    (h : runMain fromStr env = (evs, .ok txn)) :
    ∃ cfg payer,
      load_cfg fromStr env.ini = .ok cfg ∧
      env.keyfiles cfg.payer_path = some payer ∧
      (∃ a, env.keyfiles cfg.admin_path = some a) ∧
      (∃ w, env.keyfiles cfg.withdrawer_path = some w) ∧
      evs = [.getLatestBlockhash, .sendTransaction txn] ∧
      txn.fee_payer = some payer ∧
      txn.recent_blockhash = env.rpc.latest ∧
      txn.signatures = requiredSigners payer txn.instructions ∧
      ((env.cmd = .CreateConfigAccount ∧
        ∃ ack bump,
          find_program_address env.oracle [AMM_CONFIG_SEED] cfg.raydium_program
            = some (ack, bump) ∧
          txn.instructions = [create_config_account cfg.raydium_program
            cfg.admin_key payer ack cfg.pnl_owner]) ∨
       (env.cmd = .OwnerWithdrawPool ∧
        ∃ auth bump uc up,
          find_program_address env.oracle [AUTHORITY_AMM] cfg.raydium_program
            = some (auth, bump) ∧
          get_associated_token_address env.oracle cfg.withdrawer cfg.coin_mint
            = some uc ∧
          get_associated_token_address env.oracle cfg.withdrawer cfg.pc_mint
            = some up ∧
          txn.instructions = [ownerwithdraw cfg.raydium_program cfg.amm_pool
            auth cfg.amm_open_orders cfg.coin_mint cfg.pc_mint
            cfg.amm_coin_vault cfg.amm_pc_vault uc up cfg.withdrawer
            cfg.amm_target_orders payer])) := by
  unfold runMain at h
  split at h
  next e heq => simp at h
  next cfg hload =>
  split at h
  next e heq => simp at h
  next payer hpayer =>
  split at h
  next e heq => simp at h
  next admin hadmin =>
  split at h
  next e heq => simp at h
  next wdr hwdr =>
  split at h
  next e heq => simp at h
  next wallet hwallet =>
  split at h
  next hcmd =>
    split at h
    next hfpa => simp at h
    next ack bump hfpa =>
      dsimp only at h
      split at h
      next hnsp => simp at h
      next txn2 hnsp =>
        obtain ⟨hevs, htxn⟩ := Prod.mk.injEq _ _ _ _ ▸ h
        injection htxn with htxn
        subst htxn
        obtain hfields := new_signed_with_payer_ok hnsp
        subst hfields
        exact ⟨cfg, payer, hload, read_keypair_file_ok hpayer,
          ⟨admin, read_keypair_file_ok hadmin⟩,
          ⟨wdr, read_keypair_file_ok hwdr⟩, hevs.symm, rfl, rfl, rfl,
          Or.inl ⟨hcmd, ack, bump, hfpa, rfl⟩⟩
  next hcmd =>
    split at h
    next hfpa => simp at h
    next auth bump hfpa =>
    split at h
    next huc => simp at h
    next uc huc =>
    split at h
    next hup => simp at h
    next up hup =>
      dsimp only at h
      split at h
      next hnsp => simp at h
      next txn2 hnsp =>
        obtain ⟨hevs, htxn⟩ := Prod.mk.injEq _ _ _ _ ▸ h
        injection htxn with htxn
        subst htxn
        obtain hfields := new_signed_with_payer_ok hnsp
        subst hfields
        exact ⟨cfg, payer, hload, read_keypair_file_ok hpayer,
          ⟨admin, read_keypair_file_ok hadmin⟩,
          ⟨wdr, read_keypair_file_ok hwdr⟩, hevs.symm, rfl, rfl, rfl,
          Or.inr ⟨hcmd, auth, bump, uc, up, hfpa, huc, hup, rfl⟩⟩

/-- C1: for all inputs (program P, admin A, payer B, config address C,
pnl-owner D), the create-config builder returns an instruction whose
account list is exactly [C (writable, not signer), A (not signer, not
writable), B (signer, writable), D (not signer, not writable), system
account, rent sysvar] in that order, with exactly those flags. -/
theorem create_config_account_order (P A B C D : Pubkey) :
    (create_config_account P A B C D).accounts =
      [ { pubkey := C, is_signer := false, is_writable := true }
      , { pubkey := A, is_signer := false, is_writable := false }
      , { pubkey := B, is_signer := true, is_writable := true }
      , { pubkey := D, is_signer := false, is_writable := false }
      , { pubkey := SYSTEM_PROGRAM_ID, is_signer := false, is_writable := false }
      , { pubkey := RENT_SYSVAR_ID, is_signer := false, is_writable := false } ] :=
  rfl

/-- C7: address derivation is deterministic — for a fixed (seed bytes,
program identifier) pair, two sequenced calls return the same
(address, bump) result, and the result does not depend on the world state
(no randomness, no I/O). -/
theorem find_program_address_deterministic (o : DeriveOracle)
    (seeds : List (List Nat)) (prog : Pubkey) (w w2 : Nat) :
    (deriveTwice o seeds prog w).1 = (deriveTwice o seeds prog w).2 ∧
    (find_program_address_call o seeds prog w).2 =
      (find_program_address_call o seeds prog w2).2 :=
  ⟨rfl, rfl⟩

theorem requiredSigners_create_one (P A B C D : Pubkey) :
    requiredSigners B [create_config_account P A B C D] = [B] := by
  simp [requiredSigners, create_config_account, List.dedup_cons_of_mem]

theorem requiredSigners_withdraw_one (a b c d e f g h i j k l m : Pubkey) :
    requiredSigners m [ownerwithdraw a b c d e f g h i j k l m] = [m] := by
  simp [requiredSigners, ownerwithdraw, List.dedup_cons_of_mem]

theorem runMain_events_shape (fromStr : String → Option Pubkey) (env : Env) :
    (runMain fromStr env).1 = [] ∨
    (runMain fromStr env).1 = [NetEvent.getLatestBlockhash] ∨
    ∃ t, runMain fromStr env =
      ([NetEvent.getLatestBlockhash, NetEvent.sendTransaction t], Except.ok t) := by
  unfold runMain
  repeat' (first | split | (dsimp only; split))
  all_goals simp

theorem runMain_send_ok {fromStr : String → Option Pubkey} {env : Env}
    {evs : List NetEvent} {res : Except RunErr Transaction} {t : Transaction}
    (h : runMain fromStr env = (evs, res))
    (hm : NetEvent.sendTransaction t ∈ evs) :
    runMain fromStr env =
      ([NetEvent.getLatestBlockhash, NetEvent.sendTransaction t], Except.ok t) := by
  rcases runMain_events_shape fromStr env with h0 | h0 | ⟨u, hu⟩
  · rw [h] at h0; dsimp only at h0; subst h0; simp at hm
  · rw [h] at h0; dsimp only at h0; subst h0; simp at hm
  · have hevs : evs = [NetEvent.getLatestBlockhash, NetEvent.sendTransaction u] := by
      have := congrArg Prod.fst hu
      rw [h] at this
      exact this
    subst hevs
    simp only [List.mem_cons, List.not_mem_nil, or_false] at hm
    rcases hm with hm | hm
    · exact NetEvent.noConfusion hm
    · injection hm with hm
      subst hm
      exact hu

theorem load_cfg_bad_of_fieldBad {fromStr : String → Option Pubkey}
    {ini : IniFile} (hbad : fieldBad fromStr ini) :
    ∀ cfg, load_cfg fromStr ini ≠ .ok cfg := by
  intro cfg hl
  obtain ⟨h1, h2, h3⟩ := load_cfg_ok_fields hl
  rcases hbad with ⟨k, hk, hb⟩ | ⟨k, hk, hb⟩ | ⟨k, hk, hb⟩
  · obtain ⟨v, hv⟩ := h1 k hk
    exact getNonEmpty_bad hb v hv
  · obtain ⟨v, hv⟩ := h2 k hk
    exact getPk_bad hb v hv
  · obtain ⟨v, hv⟩ := h3 k hk
    exact getPk_bad hb v hv

theorem runMain_fail_of_load_bad {fromStr : String → Option Pubkey} {env : Env}
    (hbad : ∀ cfg, load_cfg fromStr env.ini ≠ .ok cfg) :
    (runMain fromStr env).1 = [] ∧ (runMain fromStr env).2.isOk = false := by
  cases hl : load_cfg fromStr env.ini with
  | error e =>
    unfold runMain
    rw [hl]
    exact ⟨rfl, rfl⟩
  | ok cfg => exact absurd hl (hbad cfg)

/-- C3: every transaction the tool broadcasts — on either subcommand, with
any outcome — carries a signature entry for every distinct account flagged
as signer in the account list of its instruction; no transaction with uncovered
signer-flagged accounts is ever sent. -/
theorem broadcast_signature_coverage {fromStr : String → Option Pubkey}
    {env : Env} {evs : List NetEvent} {res : Except RunErr Transaction}
    {t : Transaction} (h : runMain fromStr env = (evs, res))
    (hm : NetEvent.sendTransaction t ∈ evs) : coverageOk t = true := by
  have h2 := runMain_send_ok h hm
  obtain ⟨cfg, payer, -, -, -, -, -, -, -, hsig, -⟩ := runMain_ok h2
  simp only [coverageOk, List.all_eq_true]
  intro i hi m hmem
  by_cases hs : m.is_signer
  · have : m.pubkey ∈ t.signatures := by
      rw [hsig]
      exact mem_requiredSigners hi hmem hs
    simp [this]
  · simp [hs]

/-- C3 witness: the create-config fixture run broadcasts txn0c, whose
signer-flagged accounts are all covered by its signatures. -/
theorem broadcast_signature_coverage_app : coverageOk txn0c = true :=
  broadcast_signature_coverage
    (show runMain fromStr0 env0c = (evs0c, Except.ok txn0c) from rfl)
    (by simp [evs0c])

/-- C8: every successful invocation broadcasts exactly one transaction;
that transaction contains exactly one instruction and declares the payer
loaded from the configured payer path as its fee payer. -/
theorem one_transaction_per_success {fromStr : String → Option Pubkey}
    {env : Env} {evs : List NetEvent} {txn : Transaction}
    (h : runMain fromStr env = (evs, Except.ok txn)) :
    evs.filter NetEvent.isSend = [NetEvent.sendTransaction txn] ∧
    txn.instructions.length = 1 ∧
    txn.fee_payer =
      ((load_cfg fromStr env.ini).toOption.bind fun cfg =>
        env.keyfiles cfg.payer_path) := by
  obtain ⟨cfg, payer, hload, hpayer, -, -, hevs, hfee, -, -, hbr⟩ := runMain_ok h
  subst hevs
  refine ⟨by simp [NetEvent.isSend], ?_, ?_⟩
  · rcases hbr with ⟨-, ack, bump, hfpa, hins⟩ |
      ⟨-, auth, bump, uc, up, hfpa, huc, hup, hins⟩ <;> simp [hins]
  · rw [hload]
    simp only [Except.toOption, Option.some_bind]
    rw [hpayer]
    exact hfee

/-- C8 witness: the create-config fixture run broadcasts exactly the one
transaction txn0c with one instruction and the payer as fee payer. -/
theorem one_transaction_per_success_app :
    evs0c.filter NetEvent.isSend = [NetEvent.sendTransaction txn0c] ∧
    txn0c.instructions.length = 1 ∧
    txn0c.fee_payer =
      ((load_cfg fromStr0 env0c.ini).toOption.bind fun cfg =>
        env0c.keyfiles cfg.payer_path) :=
  one_transaction_per_success
    (show runMain fromStr0 env0c = (evs0c, Except.ok txn0c) from rfl)

theorem read_keypair_file_none {kf : String → Option Keypair} {path : String}
    (h : kf path = none) :
    read_keypair_file kf path =
      .error (.err ("failed to read keypair from " ++ path)) := by
  unfold read_keypair_file
  rw [h]

/-- C4: on the create-config path the admin key account is flagged neither
signer nor writable, the only signature on the transaction is that of the
payer, and
the admin keypair file is loaded even though the admin key (when distinct
from the payer) contributes no signature. -/
theorem create_config_admin_no_signature {fromStr : String → Option Pubkey}
    {env : Env} {cfg : ClientConfig} {payer : Keypair} {evs : List NetEvent}
    {txn : Transaction}
    (hcmd : env.cmd = .CreateConfigAccount)
    (hload : load_cfg fromStr env.ini = .ok cfg)
    (hpayer : env.keyfiles cfg.payer_path = some payer)
    (h : runMain fromStr env = (evs, .ok txn)) :
    env.keyfiles cfg.admin_path ≠ none ∧
    (txn.instructions.head?.map fun i => i.accounts.get? 1) =
      some (some { pubkey := cfg.admin_key, is_signer := false,
                   is_writable := false }) ∧
    txn.signatures = [payer] ∧
    (cfg.admin_key ≠ payer → cfg.admin_key ∉ txn.signatures) := by
  obtain ⟨cfg2, payer2, hload2, hpayer2, ⟨a, ha⟩, -, -, -, -, hsig, hbr⟩ :=
    runMain_ok h
  rw [hload] at hload2
  injection hload2 with hcfg
  subst hcfg
  rw [hpayer] at hpayer2
  injection hpayer2 with hp
  subst hp
  rcases hbr with ⟨-, ack, bump, hfpa, hins⟩ |
    ⟨hcmd2, auth, bump, uc, up, hfpa, huc, hup, hins⟩
  · refine ⟨by rw [ha]; simp, ?_, ?_, ?_⟩
    · rw [hins]; rfl
    · rw [hsig, hins, requiredSigners_create_one]
    · intro hne hmem
      rw [hsig, hins, requiredSigners_create_one] at hmem
      simp only [List.mem_singleton] at hmem
      exact hne hmem
  · rw [hcmd] at hcmd2
    exact CommandsName.noConfusion hcmd2

/-- C4 witness: the create-config fixture run loads the admin keypair,
places the admin key at position 1 with no flags, and signs only with the
payer (key 77), which the admin key 9 is distinct from. -/
theorem create_config_admin_no_signature_app :
    env0c.keyfiles cfg0.admin_path ≠ none ∧
    (txn0c.instructions.head?.map fun i => i.accounts.get? 1) =
      some (some { pubkey := cfg0.admin_key, is_signer := false,
                   is_writable := false }) ∧
    txn0c.signatures = [77] ∧
    (cfg0.admin_key ≠ 77 → cfg0.admin_key ∉ txn0c.signatures) :=
  create_config_admin_no_signature rfl
    (show load_cfg fromStr0 env0c.ini = .ok cfg0 from rfl)
    (show env0c.keyfiles cfg0.payer_path = some 77 from rfl)
    (show runMain fromStr0 env0c = (evs0c, Except.ok txn0c) from rfl)

/-- C2: on the withdraw path, account positions 7 and 8 of the instruction
are exactly the deterministic associated-token addresses derived from
(withdrawer, coin mint) and (withdrawer, pc mint), both writable and not
signer. -/
theorem withdraw_destinations_are_atas {fromStr : String → Option Pubkey}
    {env : Env} {cfg : ClientConfig} {evs : List NetEvent} {txn : Transaction}
    (hcmd : env.cmd = .OwnerWithdrawPool)
    (hload : load_cfg fromStr env.ini = .ok cfg)
    (h : runMain fromStr env = (evs, .ok txn)) :
    (txn.instructions.head?.map fun i => i.accounts.get? 7) =
      some ((get_associated_token_address env.oracle cfg.withdrawer
        cfg.coin_mint).map fun uc =>
          { pubkey := uc, is_signer := false, is_writable := true }) ∧
    (txn.instructions.head?.map fun i => i.accounts.get? 8) =
      some ((get_associated_token_address env.oracle cfg.withdrawer
        cfg.pc_mint).map fun up =>
          { pubkey := up, is_signer := false, is_writable := true }) := by
  obtain ⟨cfg2, payer2, hload2, -, -, -, -, -, -, -, hbr⟩ := runMain_ok h
  rw [hload] at hload2
  injection hload2 with hcfg
  subst hcfg
  rcases hbr with ⟨hcmd2, ack, bump, hfpa, hins⟩ |
    ⟨-, auth, bump, uc, up, hfpa, huc, hup, hins⟩
  · rw [hcmd] at hcmd2
    exact CommandsName.noConfusion hcmd2
  · rw [hins, huc, hup]
    exact ⟨rfl, rfl⟩

/-- C2 witness: the withdraw fixture run places the two derived
associated-token addresses at positions 7 and 8 of txn0w, writable and not
signer. -/
theorem withdraw_destinations_are_atas_app :
    (txn0w.instructions.head?.map fun i => i.accounts.get? 7) =
      some ((get_associated_token_address env0w.oracle cfg0.withdrawer
        cfg0.coin_mint).map fun uc =>
          { pubkey := uc, is_signer := false, is_writable := true }) ∧
    (txn0w.instructions.head?.map fun i => i.accounts.get? 8) =
      some ((get_associated_token_address env0w.oracle cfg0.withdrawer
        cfg0.pc_mint).map fun up =>
          { pubkey := up, is_signer := false, is_writable := true }) :=
  withdraw_destinations_are_atas rfl
    (show load_cfg fromStr0 env0w.ini = .ok cfg0 from rfl)
    (show runMain fromStr0 env0w = (evs0w, Except.ok txn0w) from rfl)

/-- C6: when any configuration field is missing, empty, or (for address
fields) unparseable, the invocation fails with no network interaction at
all — the event log is empty, so the RPC endpoint is contacted only after
every field validates — and the single-pass run makes no retry. -/
theorem invalid_config_fails_before_network {fromStr : String → Option Pubkey}
    {env : Env} (hbad : fieldBad fromStr env.ini) :
    (runMain fromStr env).1 = [] ∧ (runMain fromStr env).2.isOk = false :=
  runMain_fail_of_load_bad (load_cfg_bad_of_fieldBad hbad)

/-- C6 witness: with every settings value empty, the run performs no
network call and fails. -/
theorem invalid_config_fails_before_network_app :
    (runMain fromStr0 envEmpty).1 = [] ∧
    (runMain fromStr0 envEmpty).2.isOk = false :=
  invalid_config_fails_before_network
    (Or.inl ⟨"http_url", by simp [globalStrKeys], Or.inr rfl⟩)

/-- C9: configuration loading validates the Withdraw section
unconditionally, so the create-config subcommand fails whenever any
withdraw-only field is missing or empty, although it uses none of them. -/
theorem create_config_checks_withdraw_fields {fromStr : String → Option Pubkey}
    {env : Env} (hcmd : env.cmd = .CreateConfigAccount)
    (hbad : withdrawFieldMissing env.ini) :
    (runMain fromStr env).1 = [] ∧ (runMain fromStr env).2.isOk = false := by
  apply runMain_fail_of_load_bad
  apply load_cfg_bad_of_fieldBad
  obtain ⟨k, hk, hb⟩ := hbad
  exact Or.inr (Or.inr ⟨k, hk, hb.imp id Or.inl⟩)

/-- C9 witness: a create-config run with an empty amm_pool value fails
before any network call. -/
theorem create_config_checks_withdraw_fields_app :
    (runMain fromStr0 envBadW).1 = [] ∧
    (runMain fromStr0 envBadW).2.isOk = false :=
  create_config_checks_withdraw_fields rfl
    ⟨"amm_pool", by simp [withdrawPkKeys], Or.inr rfl⟩

/-- C10: the three keypair files (payer, admin, withdrawer) are all loaded
before any instruction is built; if any of them fails to load, the
invocation errors with no network interaction at all. -/
theorem keypairs_loaded_before_network {fromStr : String → Option Pubkey}
    {env : Env} {cfg : ClientConfig}
    (hload : load_cfg fromStr env.ini = .ok cfg)
    (hkf : env.keyfiles cfg.payer_path = none ∨
      env.keyfiles cfg.admin_path = none ∨
      env.keyfiles cfg.withdrawer_path = none) :
    (runMain fromStr env).1 = [] ∧ (runMain fromStr env).2.isOk = false := by
  unfold runMain
  rw [hload]
  dsimp only
  rcases hkf with hk | hk | hk
  · rw [read_keypair_file_none hk]
    exact ⟨rfl, rfl⟩
  · cases hp : read_keypair_file env.keyfiles cfg.payer_path with
    | error e => exact ⟨rfl, rfl⟩
    | ok p =>
      rw [read_keypair_file_none hk]
      exact ⟨rfl, rfl⟩
  · cases hp : read_keypair_file env.keyfiles cfg.payer_path with
    | error e => exact ⟨rfl, rfl⟩
    | ok p =>
      cases hadm : read_keypair_file env.keyfiles cfg.admin_path with
      | error e => exact ⟨rfl, rfl⟩
      | ok a =>
        rw [read_keypair_file_none hk]
        exact ⟨rfl, rfl⟩

/-- C10 witness: with keypair files that all fail to load, the run errors
with no network interaction. -/
theorem keypairs_loaded_before_network_app :
    (runMain fromStr0 envNoKeys).1 = [] ∧
    (runMain fromStr0 envNoKeys).2.isOk = false :=
  keypairs_loaded_before_network
    (show load_cfg fromStr0 envNoKeys.ini = .ok cfg0 from rfl) (Or.inl rfl)

/-- C5: whenever the modelled submitter broadcasts a transaction, the
checkpoint it was signed over is the one obtained by the last fetch and is
not stale at submission time; attempts whose checkpoint went stale are
re-fetched and re-signed (the broadcast fetch index is at or after the
starting one) and the stale-signed payloads are never sent — the event log
contains exactly one broadcast, of the freshly signed transaction. -/
theorem submit_refetch_resign_on_stale (net : NetworkEnv) (instr : Instruction)
    (payer : Pubkey) (signers : List Keypair) :
    ∀ fuel i evs txn j,
      submitLoop net instr payer signers i fuel = (evs, some (txn, j)) →
      i ≤ j ∧ net.staleAt j = false ∧
      txn.recent_blockhash = net.fetchSeq j ∧
      evs.filter NetEvent.isSend = [NetEvent.sendTransaction txn] := by
  intro fuel
  induction fuel with
  | zero =>
    intro i evs txn j h
    simp [submitLoop] at h
  | succ n ih =>
    intro i evs txn j h
    rw [submitLoop] at h
    cases hn : new_signed_with_payer [instr] payer signers (net.fetchSeq i) with
    | none =>
      rw [hn] at h
      simp at h
    | some t =>
      rw [hn] at h
      cases hstale : net.staleAt i with
      | true =>
        rw [hstale] at h
        simp only [if_true] at h
        try dsimp only at h
        have h2 := congrArg Prod.snd h
        dsimp only at h2
        have hpair : submitLoop net instr payer signers (i + 1) n =
            ((submitLoop net instr payer signers (i + 1) n).1, some (txn, j)) :=
          Prod.ext rfl h2
        obtain ⟨hij, hst, hbh, hfil⟩ := ih (i + 1) _ txn j hpair
        have h1 := congrArg Prod.fst h
        dsimp only at h1
        rw [← h1]
        exact ⟨Nat.le_of_succ_le hij, hst, hbh,
          by simpa [NetEvent.isSend] using hfil⟩
      | false =>
        rw [hstale] at h
        simp only [Bool.false_eq_true, if_false] at h
        obtain ⟨hevs, hr⟩ := Prod.mk.injEq _ _ _ _ ▸ h
        injection hr with hr
        obtain ⟨ht, hj⟩ := Prod.mk.injEq _ _ _ _ ▸ hr
        subst ht
        subst hj
        have hfields := new_signed_with_payer_ok hn
        subst hfields
        rw [← hevs]
        exact ⟨Nat.le_refl _, hstale, rfl, by simp [NetEvent.isSend]⟩

/-- C5 witness: with the first fetched checkpoint stale and the second
fresh, the submitter broadcasts exactly one transaction, signed over the
second checkpoint. -/
theorem submit_refetch_resign_on_stale_app :
    0 ≤ 1 ∧ net0.staleAt 1 = false ∧
    txnS.recent_blockhash = net0.fetchSeq 1 ∧
    ([NetEvent.getLatestBlockhash, NetEvent.getLatestBlockhash,
      NetEvent.sendTransaction txnS].filter NetEvent.isSend) =
      [NetEvent.sendTransaction txnS] :=
  submit_refetch_resign_on_stale net0 instrS 3 [3] 3 0
    [NetEvent.getLatestBlockhash, NetEvent.getLatestBlockhash,
      NetEvent.sendTransaction txnS] txnS 1 rfl

end AmmClient
